import Mathlib

/-!
Shallow embedding of `cloud/scope/machine.go` from cluster-api-provider-linode:
the `MachineScope` construction (credential resolution with override precedence,
validation, client construction), patch-based persistence, finalizer
bookkeeping, and bootstrap-data retrieval.

Go pointers are modelled as `Option`, Go `([]byte, error)` / `(*T, error)`
pairs as `Option _ × Option Err` (first component `none` models a nil
pointer/slice), byte slices' contents as `String` (the code only converts
them with `string(...)` and tests `len`).  Helpers of this repository that
live outside `cloud/scope/machine.go` (and the two external library calls)
are modelled from the spec, each marked in its doc comment.
-/

namespace CAPL

/-- `corev1.SecretReference`: name and namespace of a referenced secret.
An unspecified namespace is the empty string (Go zero value). -/
structure SecretReference where
  name : String
  ns : String
deriving DecidableEq, Repr

/-- The part of `LinodeMachineSpec` used by `machine.go`: the optional
credential override `Spec.CredentialsRef`. -/
structure LinodeMachineSpec where
  credentialsRef : Option SecretReference
deriving DecidableEq, Repr

/-- `infrav1alpha1.LinodeMachine`: object metadata (namespace, name,
finalizers) plus its spec. -/
structure LinodeMachine where
  ns : String
  name : String
  finalizers : List String
  spec : LinodeMachineSpec
deriving DecidableEq, Repr

/-- The part of `LinodeClusterSpec` used by `machine.go`. -/
structure LinodeClusterSpec where
  credentialsRef : Option SecretReference
deriving DecidableEq, Repr

/-- `infrav1alpha2.LinodeCluster`: object metadata plus its spec. -/
structure LinodeCluster where
  ns : String
  name : String
  spec : LinodeClusterSpec
deriving DecidableEq, Repr

/-- `clusterv1.Bootstrap`: the optional `DataSecretName`. -/
structure Bootstrap where
  dataSecretName : Option String
deriving DecidableEq, Repr

/-- The part of `clusterv1.MachineSpec` used by `machine.go`. -/
structure MachineSpec where
  bootstrap : Bootstrap
deriving DecidableEq, Repr

/-- `clusterv1.Machine`: object metadata plus its spec. -/
structure Machine where
  ns : String
  name : String
  spec : MachineSpec
deriving DecidableEq, Repr

/-- `clusterv1.Cluster`: opaque here; `machine.go` only stores the pointer. -/
structure Cluster where
  name : String
deriving DecidableEq, Repr

/-- A Kubernetes `corev1.Secret`: keyed data plus metadata finalizers. -/
structure Secret where
  data : List (String × String)
  finalizers : List String
deriving DecidableEq, Repr

/-- Map-key lookup `secret.Data[key]` (`value, ok := ...`). -/
def Secret.get (s : Secret) (key : String) : Option String :=
  (s.data.find? (fun kv => kv.1 = key)).map (fun kv => kv.2)

/-- The `K8sClient` as the state of the API server that the scope reads and
writes: secrets addressed by (namespace, name). -/
structure K8sClient where
  secrets : List ((String × String) × Secret)
deriving DecidableEq, Repr

/-- `client.Get` on a secret key: first entry with the matching
(namespace, name). -/
def K8sClient.get (c : K8sClient) (ns name : String) : Option Secret :=
  (c.secrets.find? (fun e => e.1 = (ns, name))).map (fun e => e.2)

/-- `client.Update` of the secret stored at (namespace, name). -/
def K8sClient.update (c : K8sClient) (ns name : String) (s : Secret) : K8sClient :=
  { secrets := c.secrets.map (fun e => if e.1 = (ns, name) then (e.1, s) else e) }

/-- The distinct error values produced by `machine.go` and its helpers, one
constructor per `fmt.Errorf`/`errors.New` template (arguments are the
formatted-in fields). -/
inductive Err where
  | clusterRequired
  | machineRequired
  | linodeClusterRequired
  | linodeMachineRequired
  | credentialSecretMissing (ns name : String)
  | credentialKeyMissing (ns name key : String)
  | clientEmptyToken
  | bootstrapMissingRef (ns name : String)
  | bootstrapSecretNotFound (ns name : String)
  | bootstrapPayloadMissing (ns name : String)
deriving DecidableEq, Repr

/-- The Go error strings of `machine.go` (the credential and client errors
are wrapped with `credentials from secret ref: %w` resp.
`failed to create linode client: %w` at their return sites). -/
def renderErr : Err → String
  | .clusterRequired => "cluster is required when creating a MachineScope"
  | .machineRequired => "machine is required when creating a MachineScope"
  | .linodeClusterRequired => "linodeCluster is required when creating a MachineScope"
  | .linodeMachineRequired => "linodeMachine is required when creating a MachineScope"
  | .credentialSecretMissing ns name =>
      "credentials from secret ref: secret " ++ ns ++ "/" ++ name ++ " not found"
  | .credentialKeyMissing ns name key =>
      "credentials from secret ref: key " ++ key ++ " missing in secret " ++ ns ++ "/" ++ name
  | .clientEmptyToken => "failed to create linode client: missing Linode API key"
  | .bootstrapMissingRef ns name =>
      "bootstrap data secret is nil for LinodeMachine " ++ ns ++ "/" ++ name
  | .bootstrapSecretNotFound ns name =>
      "failed to retrieve bootstrap data secret for LinodeMachine " ++ ns ++ "/" ++ name
  | .bootstrapPayloadMissing ns name =>
      "bootstrap data secret value key is missing for LinodeMachine " ++ ns ++ "/" ++ name

/-- `MachineScopeParams` (Go pointers as `Option`). -/
structure MachineScopeParams where
  client : K8sClient
  cluster : Option Cluster
  machine : Option Machine
  linodeCluster : Option LinodeCluster
  linodeMachine : Option LinodeMachine
deriving DecidableEq, Repr

/-- A `LinodeClient`: the token it was built with (the only observable the
claims need). -/
structure LinodeClient where
  token : String
deriving DecidableEq, Repr

/-- `patch.Helper`.  Modelled from the spec: the external patch helper
(`sigs.k8s.io/cluster-api/util/patch`) is not part of `src/`; per the spec it
holds the snapshot of the owner object captured at scope construction and at
patch time applies the difference between the current object and that
snapshot as a partial update, issuing no write when there is no difference.
The snapshot is captured once, at construction. -/
structure PatchHelper where
  beforeObject : LinodeMachine
deriving DecidableEq, Repr

/-- `MachineScope`. -/
structure MachineScope where
  client : K8sClient
  patchHelper : PatchHelper
  cluster : Cluster
  machine : Machine
  linodeClient : LinodeClient
  linodeDomainsClient : LinodeClient
  linodeCluster : LinodeCluster
  linodeMachine : LinodeMachine
deriving DecidableEq, Repr

/-- `validateMachineScopeParams`: sequential nil checks, first failure wins. -/
def validateMachineScopeParams (params : MachineScopeParams) : Option Err :=
  if params.cluster = none then some .clusterRequired
  else if params.machine = none then some .machineRequired
  else if params.linodeCluster = none then some .linodeClusterRequired
  else if params.linodeMachine = none then some .linodeMachineRequired
  else none

/-- Modelled from the spec: `getCredentialDataFromRef` (defined in this
repository outside `machine.go`) reads `key` from the referenced secret,
defaulting the reference's namespace to `defaultNamespace` when unspecified,
and fails when the secret or the key is missing. -/
def getCredentialDataFromRef (client : K8sClient) (credentialRef : SecretReference)
    (defaultNamespace key : String) : Except Err String :=
  let ns := if credentialRef.ns = "" then defaultNamespace else credentialRef.ns
  match client.get ns credentialRef.name with
  | none => .error (.credentialSecretMissing ns credentialRef.name)
  | some secret =>
    match secret.get key with
    | none => .error (.credentialKeyMissing ns credentialRef.name key)
    | some v => .ok v

/-- Modelled from the spec: `CreateLinodeClient` (defined in this repository
outside `machine.go`) builds a client from a token with retries fixed at 0;
construction fails only on a malformed/empty token. -/
def CreateLinodeClient (token : String) : Except Err LinodeClient :=
  if token = "" then .error .clientEmptyToken else .ok { token := token }

/-- The `switch` in `NewMachineScope` choosing the credential reference:
LinodeMachine's override first, then the owner LinodeCluster's, else none
(`credentialRef`/`defaultNamespace` keep their zero values). -/
def selectCredentialRef (linodeMachine : LinodeMachine) (linodeCluster : LinodeCluster) :
    Option SecretReference × String :=
  match linodeMachine.spec.credentialsRef with
  | some ref => (some ref, linodeMachine.ns)
  | none =>
    match linodeCluster.spec.credentialsRef with
    | some ref => (some ref, linodeCluster.ns)
    | none => (none, "")

/-- The `if credentialRef != nil` block of `NewMachineScope`: read
`apiToken` (failure aborts), then read `dnsToken` from the same secret,
silently falling back to the `apiToken` value when that read errors or
yields an empty value. -/
def resolveFromRef (client : K8sClient) (credentialRef : SecretReference)
    (defaultNamespace : String) : Except Err (String × String) :=
  match getCredentialDataFromRef client credentialRef defaultNamespace "apiToken" with
  | .error e => .error e
  | .ok apiToken =>
    let dnsToken :=
      match getCredentialDataFromRef client credentialRef defaultNamespace "dnsToken" with
      | .error _ => apiToken
      | .ok t => if t.length = 0 then apiToken else t
    .ok (apiToken, dnsToken)

/-- Credential resolution of `NewMachineScope`: the selected reference when
there is one, otherwise the controller default `apiKey`/`dnsKey` passed in
by the caller. -/
def resolveCredentials (client : K8sClient) (linodeMachine : LinodeMachine)
    (linodeCluster : LinodeCluster) (apiKey dnsKey : String) :
    Except Err (String × String) :=
  match selectCredentialRef linodeMachine linodeCluster with
  | (some ref, defaultNamespace) => resolveFromRef client ref defaultNamespace
  | (none, _) => .ok (apiKey, dnsKey)

/-- `NewMachineScope`: validation (in the order of
`validateMachineScopeParams`), credential resolution, the two client
constructions, the patch helper snapshot, then assembly of the scope.
Returns the Go `(*MachineScope, error)` pair. -/
def NewMachineScope (apiKey dnsKey : String) (params : MachineScopeParams) :
    Option MachineScope × Option Err :=
  match params.cluster, params.machine, params.linodeCluster, params.linodeMachine with
  | none, _, _, _ => (none, some .clusterRequired)
  | _, none, _, _ => (none, some .machineRequired)
  | _, _, none, _ => (none, some .linodeClusterRequired)
  | _, _, _, none => (none, some .linodeMachineRequired)
  | some cluster, some machine, some linodeCluster, some linodeMachine =>
    match resolveCredentials params.client linodeMachine linodeCluster apiKey dnsKey with
    | .error e => (none, some e)
    | .ok (apiKeyResolved, dnsKeyResolved) =>
      match CreateLinodeClient apiKeyResolved with
      | .error e => (none, some e)
      | .ok linodeClient =>
        match CreateLinodeClient dnsKeyResolved with
        | .error e => (none, some e)
        | .ok linodeDomainsClient =>
          (some { client := params.client
                  patchHelper := { beforeObject := linodeMachine }
                  cluster := cluster
                  machine := machine
                  linodeClient := linodeClient
                  linodeDomainsClient := linodeDomainsClient
                  linodeCluster := linodeCluster
                  linodeMachine := linodeMachine }, none)

/-- Modelled from the spec: the machine-lifecycle finalizer
`infrav1alpha2.MachineFinalizer` (declared outside `machine.go`) is a fixed,
well-known string constant. -/
def MachineFinalizer : String := "linodemachine.infrastructure.cluster.x-k8s.io"

/-- Modelled from the spec: `controllerutil.AddFinalizer` (external library)
appends the token to the object's finalizer list only when it is not already
a member, reporting whether the object changed. -/
def controllerutilAddFinalizer (lm : LinodeMachine) (finalizer : String) :
    LinodeMachine × Bool :=
  if finalizer ∈ lm.finalizers then (lm, false)
  else ({ lm with finalizers := lm.finalizers ++ [finalizer] }, true)

/-- Modelled from the spec: `controllerutil.RemoveFinalizer` (external
library) removes every occurrence of the token from the object's finalizer
list when present, reporting whether the object changed. -/
def controllerutilRemoveFinalizer (lm : LinodeMachine) (finalizer : String) :
    LinodeMachine × Bool :=
  if finalizer ∈ lm.finalizers then
    ({ lm with finalizers := lm.finalizers.filter (fun x => x ≠ finalizer) }, true)
  else (lm, false)

/-- The patch helper's `Patch` call.  Modelled from the spec: the write is
the difference between the current object and the snapshot captured at
construction; when there is no difference, no network write is issued.  The
returned number counts the network writes the call performs (0 or 1). -/
def patchHelperPatch (h : PatchHelper) (obj : LinodeMachine) : Nat :=
  if obj = h.beforeObject then 0 else 1

/-- `PatchObject` persists the machine configuration and status; the result
counts the network writes performed. -/
def MachineScope.PatchObject (s : MachineScope) : Nat :=
  patchHelperPatch s.patchHelper s.linodeMachine

/-- `Close` closes the current scope persisting the machine configuration
and status. -/
def MachineScope.Close (s : MachineScope) : Nat :=
  s.PatchObject

/-- `AddFinalizer` adds the machine finalizer if not present and immediately
patches the object; returns the updated scope and the number of network
writes performed. -/
def MachineScope.AddFinalizer (s : MachineScope) : MachineScope × Nat :=
  let r := controllerutilAddFinalizer s.linodeMachine MachineFinalizer
  if r.2 then
    let s' := { s with linodeMachine := r.1 }
    (s', s'.Close)
  else (s, 0)

/-- Modelled from the spec: `RemoveFinalizer` is symmetric to
`AddFinalizer` for the machine-lifecycle finalizer — removes the token if
present and immediately persists, and is a no-op when the token is absent. -/
def MachineScope.RemoveFinalizer (s : MachineScope) : MachineScope × Nat :=
  let r := controllerutilRemoveFinalizer s.linodeMachine MachineFinalizer
  if r.2 then
    let s' := { s with linodeMachine := r.1 }
    (s', s'.Close)
  else (s, 0)

/-- `GetBootstrapData` returns the bootstrap data from the secret named by
the Machine's `bootstrap.dataSecretName`, fetched in the LinodeMachine's
namespace.  Result is the Go `([]byte, error)` pair: the first component is
`none` for a nil slice and `some ""` for the empty non-nil slice `[]byte{}`
returned on the error paths. -/
def MachineScope.GetBootstrapData (m : MachineScope) : Option String × Option Err :=
  match m.machine.spec.bootstrap.dataSecretName with
  | none => (some "", some (.bootstrapMissingRef m.linodeMachine.ns m.linodeMachine.name))
  | some secretName =>
    match m.client.get m.linodeMachine.ns secretName with
    | none => (some "", some (.bootstrapSecretNotFound m.linodeMachine.ns m.linodeMachine.name))
    | some secret =>
      match secret.get "value" with
      | none => (some "", some (.bootstrapPayloadMissing m.linodeMachine.ns m.linodeMachine.name))
      | some value => (some value, none)

/-- Modelled from the spec: `toFinalizer` (defined in this repository
outside `machine.go`) derives the credential-protection finalizer token
deterministically from the referencing object's kind, namespace and name. -/
def toFinalizer (lm : LinodeMachine) : String :=
  "linodemachine." ++ lm.ns ++ "/" ++ lm.name

/-- Modelled from the spec: `addCredentialsFinalizer` (defined in this
repository outside `machine.go`) registers `finalizer` on the referenced
secret, defaulting the reference's namespace to `defaultNamespace`; it adds
the token to the secret's finalizer list when absent and writes the secret
back. -/
def addCredentialsFinalizer (client : K8sClient) (credentialsRef : SecretReference)
    (defaultNamespace finalizer : String) : Except Err K8sClient :=
  let ns := if credentialsRef.ns = "" then defaultNamespace else credentialsRef.ns
  match client.get ns credentialsRef.name with
  | none => .error (.credentialSecretMissing ns credentialsRef.name)
  | some secret =>
    if finalizer ∈ secret.finalizers then .ok client
    else .ok (client.update ns credentialsRef.name
      { secret with finalizers := secret.finalizers ++ [finalizer] })

/-- Modelled from the spec: `removeCredentialsFinalizer` (defined in this
repository outside `machine.go`) removes `finalizer` from the referenced
secret, defaulting the reference's namespace to `defaultNamespace`. -/
def removeCredentialsFinalizer (client : K8sClient) (credentialsRef : SecretReference)
    (defaultNamespace finalizer : String) : Except Err K8sClient :=
  let ns := if credentialsRef.ns = "" then defaultNamespace else credentialsRef.ns
  match client.get ns credentialsRef.name with
  | none => .error (.credentialSecretMissing ns credentialsRef.name)
  | some secret =>
    if finalizer ∈ secret.finalizers then
      .ok (client.update ns credentialsRef.name
        { secret with finalizers := secret.finalizers.filter (fun x => x ≠ finalizer) })
    else .ok client

/-- `AddCredentialsRefFinalizer`: only acts when the machine has an override
for the credentials reference; returns the (possibly updated) API server
state. -/
def MachineScope.AddCredentialsRefFinalizer (s : MachineScope) : Except Err K8sClient :=
  match s.linodeMachine.spec.credentialsRef with
  | none => .ok s.client
  | some ref =>
    addCredentialsFinalizer s.client ref s.linodeMachine.ns (toFinalizer s.linodeMachine)

/-- `RemoveCredentialsRefFinalizer`: only acts when the machine has an
override for the credentials reference. -/
def MachineScope.RemoveCredentialsRefFinalizer (s : MachineScope) : Except Err K8sClient :=
  match s.linodeMachine.spec.credentialsRef with
  | none => .ok s.client
  | some ref =>
    removeCredentialsFinalizer s.client ref s.linodeMachine.ns (toFinalizer s.linodeMachine)

/-! Concrete fixtures used by the witnesses below. -/

def secretEx : Secret :=
  { data := [("apiToken", "abc"), ("value", "payload")], finalizers := [] }

def clientEx : K8sClient := { secrets := [(("ns1", "cred"), secretEx)] }

def clusterEx : Cluster := { name := "c" }

def machineEx : Machine :=
  { ns := "ns0", name := "m", spec := { bootstrap := { dataSecretName := some "cred" } } }

def refEx : SecretReference := { name := "cred", ns := "" }

def lmEx : LinodeMachine :=
  { ns := "ns1", name := "lm", finalizers := [], spec := { credentialsRef := none } }

def lmRefEx : LinodeMachine := { lmEx with spec := { credentialsRef := some refEx } }

def lcEx : LinodeCluster := { ns := "ns2", name := "lc", spec := { credentialsRef := none } }

def scopeEx : MachineScope :=
  { client := clientEx
    patchHelper := { beforeObject := lmEx }
    cluster := clusterEx
    machine := machineEx
    linodeClient := { token := "a" }
    linodeDomainsClient := { token := "d" }
    linodeCluster := lcEx
    linodeMachine := lmEx }

def scopeRefEx : MachineScope :=
  { scopeEx with patchHelper := { beforeObject := lmRefEx }, linodeMachine := lmRefEx }

def scopeDirty : MachineScope :=
  { scopeEx with linodeMachine := { lmEx with finalizers := ["extra"] } }

def scopeNoBoot : MachineScope :=
  { scopeEx with
    machine := { machineEx with spec := { bootstrap := { dataSecretName := none } } } }

def lmWithFin : LinodeMachine := { lmEx with finalizers := [MachineFinalizer] }

def scopeWithFin : MachineScope :=
  { scopeEx with patchHelper := { beforeObject := lmWithFin }, linodeMachine := lmWithFin }

/-! Helper lemmas shared by the claim theorems. -/

theorem string_eq_empty_of_length {s : String} (h : s.length = 0) : s = "" := by
  cases s with
  | mk data =>
    simp [String.length] at h
    simp [h]

theorem append_singleton_ne (l : List String) (a : String) : l ++ [a] ≠ l := by
  intro h
  simpa using congrArg List.length h

theorem filter_ne_self_of_mem {l : List String} {a : String} (h : a ∈ l) :
    l.filter (fun x => x ≠ a) ≠ l := by
  intro heq
  have h2 : a ∈ l.filter (fun x => x ≠ a) := by rw [heq]; exact h
  simp at h2

/-- C1: for every combination of owner (LinodeMachine) and parent
(LinodeCluster) credential override, `NewMachineScope` selects the owner's
credential reference when present, otherwise the parent's when present, and
otherwise resolves to the controller default `apiKey`/`dnsKey` passed by the
caller; the selection is total and deterministic (it is a function), and the
resolved tokens are the ones the scope's clients are built with. -/
theorem newMachineScope_credential_precedence
    (client : K8sClient) (lm : LinodeMachine) (lc : LinodeCluster)
    (apiKey dnsKey : String) :
    (∀ r, lm.spec.credentialsRef = some r →
      selectCredentialRef lm lc = (some r, lm.ns)) ∧
    (lm.spec.credentialsRef = none → ∀ r, lc.spec.credentialsRef = some r →
      selectCredentialRef lm lc = (some r, lc.ns)) ∧
    (lm.spec.credentialsRef = none → lc.spec.credentialsRef = none →
      resolveCredentials client lm lc apiKey dnsKey = .ok (apiKey, dnsKey)) ∧
    (∀ c m a d, resolveCredentials client lm lc apiKey dnsKey = .ok (a, d) →
      a ≠ "" → d ≠ "" →
      NewMachineScope apiKey dnsKey
          { client := client, cluster := some c, machine := some m,
            linodeCluster := some lc, linodeMachine := some lm } =
        (some { client := client
                patchHelper := { beforeObject := lm }
                cluster := c
                machine := m
                linodeClient := { token := a }
                linodeDomainsClient := { token := d }
                linodeCluster := lc
                linodeMachine := lm }, none)) := by
  refine ⟨?_, ?_, ?_, ?_⟩
  · intro r h
    simp [selectCredentialRef, h]
  · intro h r h2
    simp [selectCredentialRef, h, h2]
  · intro h h2
    simp [resolveCredentials, selectCredentialRef, h, h2]
  · intro c m a d hres ha hd
    simp [NewMachineScope, hres, CreateLinodeClient, ha, hd]

/-- Witness for C1 at concrete inputs: owner override selected when present;
with both overrides absent the controller defaults flow into the clients. -/
theorem newMachineScope_credential_precedence_witness :
    selectCredentialRef lmRefEx lcEx = (some refEx, lmRefEx.ns) ∧
    resolveCredentials clientEx lmEx lcEx "a" "d" = .ok ("a", "d") ∧
    NewMachineScope "a" "d"
        { client := clientEx, cluster := some clusterEx, machine := some machineEx,
          linodeCluster := some lcEx, linodeMachine := some lmEx } =
      (some { client := clientEx
              patchHelper := { beforeObject := lmEx }
              cluster := clusterEx
              machine := machineEx
              linodeClient := { token := "a" }
              linodeDomainsClient := { token := "d" }
              linodeCluster := lcEx
              linodeMachine := lmEx }, none) := by
  have h := newMachineScope_credential_precedence clientEx lmEx lcEx "a" "d"
  have h2 := newMachineScope_credential_precedence clientEx lmRefEx lcEx "a" "d"
  refine ⟨h2.1 refEx rfl, h.2.2.1 rfl rfl, ?_⟩
  exact h.2.2.2 clusterEx machineEx "a" "d" (h.2.2.1 rfl rfl) (by decide) (by decide)

/-- C2: when a credential reference is selected and its secret's `apiToken`
key resolves to `X`, then if the `dnsToken` read errors (key or secret
absent) or yields the empty value, the resolved secondary token equals `X`
(silent fallback, not an error); if it yields a non-empty `Y` the secondary
token equals `Y`. -/
theorem resolveFromRef_dns_fallback
    (client : K8sClient) (credentialRef : SecretReference) (defaultNamespace X : String)
    (hapi : getCredentialDataFromRef client credentialRef defaultNamespace "apiToken" = .ok X) :
    (∀ e, getCredentialDataFromRef client credentialRef defaultNamespace "dnsToken" = .error e →
      resolveFromRef client credentialRef defaultNamespace = .ok (X, X)) ∧
    (getCredentialDataFromRef client credentialRef defaultNamespace "dnsToken" = .ok "" →
      resolveFromRef client credentialRef defaultNamespace = .ok (X, X)) ∧
    (∀ Y, getCredentialDataFromRef client credentialRef defaultNamespace "dnsToken" = .ok Y →
      Y ≠ "" → resolveFromRef client credentialRef defaultNamespace = .ok (X, Y)) := by
  refine ⟨?_, ?_, ?_⟩
  · intro e h
    simp [resolveFromRef, hapi, h]
  · intro h
    simp [resolveFromRef, hapi, h]
  · intro Y h hY
    have hlen : ¬ Y.length = 0 := fun hl => hY (string_eq_empty_of_length hl)
    simp [resolveFromRef, hapi, h, hlen]

/-- Witness for C2: the fixture secret has `apiToken = "abc"` and no
`dnsToken`, so the secondary token silently falls back to `"abc"`. -/
theorem resolveFromRef_dns_fallback_witness :
    resolveFromRef clientEx refEx "ns1" = .ok ("abc", "abc") := by
  have h := resolveFromRef_dns_fallback clientEx refEx "ns1" "abc" (by rfl)
  exact h.1 (.credentialKeyMissing "ns1" "cred" "dnsToken") (by rfl)

/-- C3: `NewMachineScope` fails immediately on a nil `Cluster`, `Machine`,
`LinodeCluster` or `LinodeMachine`, with the error naming the absent field
(checked in the order of `validateMachineScopeParams`); the failure happens
before credential resolution or client construction (the result is then
independent of the API server state), and no partial scope is ever returned:
the scope is `none` exactly when the error is non-`none`. -/
theorem newMachineScope_validates_params (apiKey dnsKey : String)
    (params : MachineScopeParams) :
    (params.cluster = none →
      NewMachineScope apiKey dnsKey params = (none, some .clusterRequired)) ∧
    (params.cluster ≠ none → params.machine = none →
      NewMachineScope apiKey dnsKey params = (none, some .machineRequired)) ∧
    (params.cluster ≠ none → params.machine ≠ none → params.linodeCluster = none →
      NewMachineScope apiKey dnsKey params = (none, some .linodeClusterRequired)) ∧
    (params.cluster ≠ none → params.machine ≠ none → params.linodeCluster ≠ none →
      params.linodeMachine = none →
      NewMachineScope apiKey dnsKey params = (none, some .linodeMachineRequired)) ∧
    (validateMachineScopeParams params ≠ none → ∀ client2,
      NewMachineScope apiKey dnsKey { params with client := client2 } =
        NewMachineScope apiKey dnsKey params) ∧
    ((NewMachineScope apiKey dnsKey params).1 = none ↔
      (NewMachineScope apiKey dnsKey params).2 ≠ none) ∧
    (renderErr .clusterRequired = "cluster is required when creating a MachineScope" ∧
      renderErr .machineRequired = "machine is required when creating a MachineScope" ∧
      renderErr .linodeClusterRequired =
        "linodeCluster is required when creating a MachineScope" ∧
      renderErr .linodeMachineRequired =
        "linodeMachine is required when creating a MachineScope") := by
  obtain ⟨cl, oc, om, olc, olm⟩ := params
  cases oc <;> cases om <;> cases olc <;> cases olm <;>
    simp [NewMachineScope, validateMachineScopeParams, renderErr]
  case some.some.some.some c m lc lm =>
    cases hr : resolveCredentials cl lm lc apiKey dnsKey with
    | error e => simp [hr]
    | ok p =>
      obtain ⟨a, d⟩ := p
      cases h1 : CreateLinodeClient a with
      | error e => simp [hr, h1]
      | ok c1 =>
        cases h2 : CreateLinodeClient d with
        | error e => simp [hr, h1, h2]
        | ok c2 => simp [hr, h1, h2]

/-- Witness for C3: construction with `machine = nil` fails with the
field-naming error, independently of the API server state. -/
theorem newMachineScope_validates_params_witness :
    NewMachineScope "a" "d"
        { client := clientEx, cluster := some clusterEx, machine := none,
          linodeCluster := some lcEx, linodeMachine := some lmEx } =
      (none, some Err.machineRequired) ∧
    renderErr Err.machineRequired = "machine is required when creating a MachineScope" := by
  have h := newMachineScope_validates_params "a" "d"
    { client := clientEx, cluster := some clusterEx, machine := none,
      linodeCluster := some lcEx, linodeMachine := some lmEx }
  exact ⟨h.2.1 (by simp) rfl, h.2.2.2.2.2.2.2.1⟩

/-- C8: `NewMachineScope` never mutates the objects passed in `params`: in
this pure embedding construction is a function of its inputs, and on success
the scope holds exactly the objects given in `params` (and the snapshot of
the owner object taken for the patch helper equals the owner object). -/
theorem newMachineScope_frame (apiKey dnsKey : String) (params : MachineScopeParams)
    (scope : MachineScope)
    (h : (NewMachineScope apiKey dnsKey params).1 = some scope) :
    params.cluster = some scope.cluster ∧ params.machine = some scope.machine ∧
    params.linodeCluster = some scope.linodeCluster ∧
    params.linodeMachine = some scope.linodeMachine ∧
    scope.client = params.client ∧
    scope.patchHelper.beforeObject = scope.linodeMachine := by
  obtain ⟨cl, oc, om, olc, olm⟩ := params
  cases oc <;> cases om <;> cases olc <;> cases olm <;>
    simp [NewMachineScope] at h ⊢
  case some.some.some.some c m lc lm =>
    cases hr : resolveCredentials cl lm lc apiKey dnsKey with
    | error e => simp [hr] at h
    | ok p =>
      obtain ⟨a, d⟩ := p
      cases h1 : CreateLinodeClient a with
      | error e => simp [hr, h1] at h
      | ok c1 =>
        cases h2 : CreateLinodeClient d with
        | error e => simp [hr, h1, h2] at h
        | ok c2 =>
          simp [hr, h1, h2] at h
          subst h
          simp

/-- Witness for C8: a successful concrete construction returns the params'
objects unchanged. -/
theorem newMachineScope_frame_witness :
    (NewMachineScope "a" "d"
        { client := clientEx, cluster := some clusterEx, machine := some machineEx,
          linodeCluster := some lcEx, linodeMachine := some lmEx }).1 =
      some { client := clientEx
             patchHelper := { beforeObject := lmEx }
             cluster := clusterEx
             machine := machineEx
             linodeClient := { token := "a" }
             linodeDomainsClient := { token := "d" }
             linodeCluster := lcEx
             linodeMachine := lmEx } ∧
    some clusterEx = some clusterEx ∧ lmEx = lmEx := by
  have h := newMachineScope_frame "a" "d"
    { client := clientEx, cluster := some clusterEx, machine := some machineEx,
      linodeCluster := some lcEx, linodeMachine := some lmEx }
    { client := clientEx
      patchHelper := { beforeObject := lmEx }
      cluster := clusterEx
      machine := machineEx
      linodeClient := { token := "a" }
      linodeDomainsClient := { token := "d" }
      linodeCluster := lcEx
      linodeMachine := lmEx }
    (by rfl)
  exact ⟨by rfl, h.1, h.2.2.2.2.2⟩

theorem addFinalizer_of_mem {s : MachineScope}
    (h : MachineFinalizer ∈ s.linodeMachine.finalizers) :
    s.AddFinalizer = (s, 0) := by
  simp [MachineScope.AddFinalizer, controllerutilAddFinalizer, h]

theorem addFinalizer_of_not_mem {s : MachineScope}
    (h : MachineFinalizer ∉ s.linodeMachine.finalizers) :
    s.AddFinalizer =
      (let s' : MachineScope := { s with linodeMachine :=
        { s.linodeMachine with finalizers := s.linodeMachine.finalizers ++ [MachineFinalizer] } }
       (s', patchHelperPatch s.patchHelper s'.linodeMachine)) := by
  simp [MachineScope.AddFinalizer, controllerutilAddFinalizer, h,
    MachineScope.Close, MachineScope.PatchObject]

/-- C4: `AddFinalizer` adds the machine finalizer to the owner object's
finalizer set if absent and immediately persists; if the token is already
present it returns success without a write; for a freshly constructed scope
(snapshot equal to the owner object) with the token absent, calling it twice
performs exactly one persisted write and leaves the token in the set exactly
once. -/
theorem addFinalizer_write_once (s : MachineScope) :
    (MachineFinalizer ∈ s.linodeMachine.finalizers → s.AddFinalizer = (s, 0)) ∧
    (s.patchHelper.beforeObject = s.linodeMachine →
      MachineFinalizer ∉ s.linodeMachine.finalizers →
      (s.AddFinalizer).2 + ((s.AddFinalizer).1.AddFinalizer).2 = 1 ∧
      MachineFinalizer ∈ (s.AddFinalizer).1.linodeMachine.finalizers ∧
      ((s.AddFinalizer).1.AddFinalizer).1.linodeMachine.finalizers.count MachineFinalizer
        = 1) := by
  refine ⟨fun h => addFinalizer_of_mem h, fun h1 h2 => ?_⟩
  rw [addFinalizer_of_not_mem h2]
  have hmem : MachineFinalizer ∈ s.linodeMachine.finalizers ++ [MachineFinalizer] := by
    simp
  have hne : ({ s.linodeMachine with
      finalizers := s.linodeMachine.finalizers ++ [MachineFinalizer] } : LinodeMachine)
      ≠ s.patchHelper.beforeObject := by
    rw [h1]
    intro hEq
    exact append_singleton_ne s.linodeMachine.finalizers MachineFinalizer
      (congrArg LinodeMachine.finalizers hEq)
  simp only []
  rw [addFinalizer_of_mem (s := { s with linodeMachine :=
    { s.linodeMachine with finalizers := s.linodeMachine.finalizers ++ [MachineFinalizer] } })
    hmem]
  refine ⟨?_, hmem, ?_⟩
  · simp [patchHelperPatch, hne]
  · simp [List.count_append, List.count_eq_zero.mpr h2]

/-- Witness for C4: on the fixture scope (fresh snapshot, finalizer absent)
two `AddFinalizer` calls persist exactly once and record the token once. -/
theorem addFinalizer_write_once_witness :
    (scopeEx.AddFinalizer).2 + ((scopeEx.AddFinalizer).1.AddFinalizer).2 = 1 ∧
    ((scopeEx.AddFinalizer).1.AddFinalizer).1.linodeMachine.finalizers.count MachineFinalizer
      = 1 := by
  have h := (addFinalizer_write_once scopeEx).2 (by rfl) (by decide)
  exact ⟨h.1, h.2.2⟩

theorem removeFinalizer_of_not_mem {s : MachineScope}
    (h : MachineFinalizer ∉ s.linodeMachine.finalizers) :
    s.RemoveFinalizer = (s, 0) := by
  simp [MachineScope.RemoveFinalizer, controllerutilRemoveFinalizer, h]

theorem removeFinalizer_of_mem {s : MachineScope}
    (h : MachineFinalizer ∈ s.linodeMachine.finalizers) :
    s.RemoveFinalizer =
      (let s' : MachineScope := { s with linodeMachine :=
        { s.linodeMachine with finalizers :=
          s.linodeMachine.finalizers.filter (fun x => x ≠ MachineFinalizer) } }
       (s', patchHelperPatch s.patchHelper s'.linodeMachine)) := by
  simp [MachineScope.RemoveFinalizer, controllerutilRemoveFinalizer, h,
    MachineScope.Close, MachineScope.PatchObject]

/-- C5: `RemoveFinalizer` removes the machine finalizer from the owner
object's finalizer set if present and immediately persists (one write on a
freshly constructed scope); when the token is absent it performs zero writes
and returns success with the scope unchanged. -/
theorem removeFinalizer_spec (s : MachineScope) :
    (MachineFinalizer ∉ s.linodeMachine.finalizers → s.RemoveFinalizer = (s, 0)) ∧
    (s.patchHelper.beforeObject = s.linodeMachine →
      MachineFinalizer ∈ s.linodeMachine.finalizers →
      (s.RemoveFinalizer).2 = 1 ∧
      MachineFinalizer ∉ (s.RemoveFinalizer).1.linodeMachine.finalizers) := by
  refine ⟨fun h => removeFinalizer_of_not_mem h, fun h1 h2 => ?_⟩
  rw [removeFinalizer_of_mem h2]
  have hne : ({ s.linodeMachine with
      finalizers := s.linodeMachine.finalizers.filter (fun x => x ≠ MachineFinalizer) }
        : LinodeMachine) ≠ s.patchHelper.beforeObject := by
    rw [h1]
    intro hEq
    exact filter_ne_self_of_mem h2 (congrArg LinodeMachine.finalizers hEq)
  constructor
  · show patchHelperPatch s.patchHelper
      { s.linodeMachine with finalizers :=
        s.linodeMachine.finalizers.filter (fun x => x ≠ MachineFinalizer) } = 1
    unfold patchHelperPatch
    rw [if_neg hne]
  · show MachineFinalizer ∉
      ({ s.linodeMachine with finalizers :=
        s.linodeMachine.finalizers.filter (fun x => x ≠ MachineFinalizer) }
          : LinodeMachine).finalizers
    simp

/-- Witness for C5: removing from the fixture scope, whose finalizer set
does not contain the token, performs zero writes and returns the scope
unchanged; on a scope that does contain it, one write removes it. -/
theorem removeFinalizer_spec_witness :
    scopeEx.RemoveFinalizer = (scopeEx, 0) ∧
    (scopeWithFin.RemoveFinalizer).2 = 1 ∧
    MachineFinalizer ∉ (scopeWithFin.RemoveFinalizer).1.linodeMachine.finalizers := by
  have h0 := (removeFinalizer_spec scopeEx).1 (by decide)
  have h1 := (removeFinalizer_spec scopeWithFin).2 (by rfl) (by decide)
  exact ⟨h0, h1.1, h1.2⟩

/-- The claim of C9 as stated is false: for a scope whose owner object
already differs from the construction snapshot (here: a finalizer added in
memory and not yet persisted), two `PatchObject` calls with no mutation
between them both find a difference against the fixed snapshot and each
issues a write — two writes, not at most one. -/
theorem patchObject_twice_counterexample :
    ¬ (scopeDirty.PatchObject + scopeDirty.PatchObject ≤ 1) := by decide

/-- C9 (amended): `PatchObject` (and `Close`, which is identical) computes
the patch against the snapshot captured at scope construction and writes iff
the owner object differs from that snapshot; hence two calls with the owner
object unchanged since construction perform zero writes, while two calls on
an already-modified object perform one write each (two in total), because
the snapshot is never refreshed. -/
theorem patchObject_write_iff (s : MachineScope) :
    (s.linodeMachine = s.patchHelper.beforeObject →
      s.PatchObject + s.PatchObject = 0) ∧
    (s.linodeMachine ≠ s.patchHelper.beforeObject →
      s.PatchObject + s.PatchObject = 2) ∧
    s.Close = s.PatchObject := by
  refine ⟨?_, ?_, rfl⟩ <;> intro h <;>
    simp [MachineScope.PatchObject, patchHelperPatch, h]

/-- Witness for C9 (amended): the clean fixture scope persists nothing on
either call; the dirty one writes twice. -/
theorem patchObject_write_iff_witness :
    scopeEx.PatchObject + scopeEx.PatchObject = 0 ∧
    scopeDirty.PatchObject + scopeDirty.PatchObject = 2 := by
  exact ⟨(patchObject_write_iff scopeEx).1 rfl,
    (patchObject_write_iff scopeDirty).2.1 (by decide)⟩

/-- C6: `AddCredentialsRefFinalizer` and `RemoveCredentialsRefFinalizer`
return success without touching the API server state whenever the
LinodeMachine carries no credential override; when an override exists they
register/remove the finalizer `toFinalizer` — derived deterministically from
the owning object's identity — on the referenced secret, with the
reference's namespace defaulting to the LinodeMachine's namespace. -/
theorem credentialsRefFinalizer_spec (s : MachineScope) :
    (s.linodeMachine.spec.credentialsRef = none →
      s.AddCredentialsRefFinalizer = .ok s.client ∧
      s.RemoveCredentialsRefFinalizer = .ok s.client) ∧
    (∀ ref, s.linodeMachine.spec.credentialsRef = some ref →
      s.AddCredentialsRefFinalizer =
        addCredentialsFinalizer s.client ref s.linodeMachine.ns
          (toFinalizer s.linodeMachine) ∧
      s.RemoveCredentialsRefFinalizer =
        removeCredentialsFinalizer s.client ref s.linodeMachine.ns
          (toFinalizer s.linodeMachine)) ∧
    (∀ ref sec, s.linodeMachine.spec.credentialsRef = some ref →
      s.client.get (if ref.ns = "" then s.linodeMachine.ns else ref.ns) ref.name
        = some sec →
      toFinalizer s.linodeMachine ∉ sec.finalizers →
      s.AddCredentialsRefFinalizer = .ok
        (s.client.update (if ref.ns = "" then s.linodeMachine.ns else ref.ns) ref.name
          { sec with finalizers := sec.finalizers ++ [toFinalizer s.linodeMachine] }) ∧
      s.RemoveCredentialsRefFinalizer = .ok s.client) := by
  refine ⟨?_, ?_, ?_⟩
  · intro h
    constructor <;>
      simp [MachineScope.AddCredentialsRefFinalizer,
        MachineScope.RemoveCredentialsRefFinalizer, h]
  · intro ref h
    constructor <;>
      simp [MachineScope.AddCredentialsRefFinalizer,
        MachineScope.RemoveCredentialsRefFinalizer, h]
  · intro ref sec h hget hmem
    constructor
    · simp [MachineScope.AddCredentialsRefFinalizer, addCredentialsFinalizer, h, hget, hmem]
    · simp [MachineScope.RemoveCredentialsRefFinalizer, removeCredentialsFinalizer, h,
        hget, hmem]

/-- Witness for C6: on the no-override fixture both operations are no-ops;
on the override fixture the add registers the derived finalizer on the
referenced secret in the LinodeMachine's namespace, and the remove is a
no-op because the secret does not carry the finalizer. -/
theorem credentialsRefFinalizer_spec_witness :
    scopeEx.AddCredentialsRefFinalizer = .ok scopeEx.client ∧
    scopeEx.RemoveCredentialsRefFinalizer = .ok scopeEx.client ∧
    scopeRefEx.AddCredentialsRefFinalizer = .ok
      (scopeRefEx.client.update "ns1" "cred"
        { secretEx with finalizers := secretEx.finalizers ++ [toFinalizer lmRefEx] }) ∧
    scopeRefEx.RemoveCredentialsRefFinalizer = .ok scopeRefEx.client := by
  have h0 := (credentialsRefFinalizer_spec scopeEx).1 rfl
  have h1 := (credentialsRefFinalizer_spec scopeRefEx).2.2 refEx secretEx rfl (by rfl)
    (by decide)
  exact ⟨h0.1, h0.2, h1.1, h1.2⟩

/-- C7: `GetBootstrapData` fails with the distinct missing-reference error
— independently of the API server state, so before any network call — when
the parent Machine's bootstrap data secret name is nil; with the name
present it fails with the distinct not-found error when the secret is
absent, with the distinct payload-missing error when the secret lacks the
`value` key, and otherwise returns the payload; the three error kinds are
pairwise distinct. -/
theorem getBootstrapData_error_kinds (s : MachineScope) :
    (s.machine.spec.bootstrap.dataSecretName = none →
      s.GetBootstrapData =
        (some "", some (.bootstrapMissingRef s.linodeMachine.ns s.linodeMachine.name)) ∧
      ∀ client2, ({ s with client := client2 } : MachineScope).GetBootstrapData =
        s.GetBootstrapData) ∧
    (∀ n, s.machine.spec.bootstrap.dataSecretName = some n →
      s.client.get s.linodeMachine.ns n = none →
      s.GetBootstrapData =
        (some "", some (.bootstrapSecretNotFound s.linodeMachine.ns s.linodeMachine.name))) ∧
    (∀ n sec, s.machine.spec.bootstrap.dataSecretName = some n →
      s.client.get s.linodeMachine.ns n = some sec →
      sec.get "value" = none →
      s.GetBootstrapData =
        (some "", some (.bootstrapPayloadMissing s.linodeMachine.ns s.linodeMachine.name))) ∧
    (∀ n sec v, s.machine.spec.bootstrap.dataSecretName = some n →
      s.client.get s.linodeMachine.ns n = some sec →
      sec.get "value" = some v →
      s.GetBootstrapData = (some v, none)) ∧
    (∀ a b, Err.bootstrapMissingRef a b ≠ Err.bootstrapSecretNotFound a b ∧
      Err.bootstrapMissingRef a b ≠ Err.bootstrapPayloadMissing a b ∧
      Err.bootstrapSecretNotFound a b ≠ Err.bootstrapPayloadMissing a b) := by
  refine ⟨?_, ?_, ?_, ?_, ?_⟩
  · intro h
    constructor <;> simp [MachineScope.GetBootstrapData, h]
  · intro n h hget
    simp [MachineScope.GetBootstrapData, h, hget]
  · intro n sec h hget hval
    simp [MachineScope.GetBootstrapData, h, hget, hval]
  · intro n sec v h hget hval
    simp [MachineScope.GetBootstrapData, h, hget, hval]
  · intro a b
    refine ⟨?_, ?_, ?_⟩ <;> intro h <;> cases h

/-- Witness for C7: the fixture machine references secret `cred`, which
holds the payload under `value`; a machine without a reference fails with
the missing-reference kind regardless of the API server state. -/
theorem getBootstrapData_error_kinds_witness :
    scopeEx.GetBootstrapData = (some "payload", none) ∧
    scopeNoBoot.GetBootstrapData =
      (some "", some (.bootstrapMissingRef "ns1" "lm")) := by
  have h := (getBootstrapData_error_kinds scopeEx).2.2.2.1 "cred" secretEx "payload"
    rfl (by rfl) (by rfl)
  have h2 := ((getBootstrapData_error_kinds scopeNoBoot).1 rfl).1
  exact ⟨h, h2⟩

/-- C10: `GetBootstrapData` fetches the bootstrap secret from the
LinodeMachine's namespace — the parent Machine's namespace is irrelevant to
the result — under the name taken from the parent Machine's bootstrap data
secret name, and its first (byte slice) component is never nil: on every
error path it is the empty non-nil slice. -/
theorem getBootstrapData_namespace_nonnil (s : MachineScope) :
    (∀ ns2, ({ s with machine := { s.machine with ns := ns2 } }
        : MachineScope).GetBootstrapData = s.GetBootstrapData) ∧
    (s.GetBootstrapData).1.isSome = true ∧
    (∀ e, (s.GetBootstrapData).2 = some e → (s.GetBootstrapData).1 = some "") ∧
    (∀ n, s.machine.spec.bootstrap.dataSecretName = some n →
      s.client.get s.linodeMachine.ns n = none →
      (s.GetBootstrapData).2 =
        some (.bootstrapSecretNotFound s.linodeMachine.ns s.linodeMachine.name)) := by
  refine ⟨?_, ?_, ?_, ?_⟩
  · intro ns2
    cases h : s.machine.spec.bootstrap.dataSecretName with
    | none => simp [MachineScope.GetBootstrapData, h]
    | some n =>
      cases hget : s.client.get s.linodeMachine.ns n with
      | none => simp [MachineScope.GetBootstrapData, h, hget]
      | some sec =>
        cases hval : sec.get "value" with
        | none => simp [MachineScope.GetBootstrapData, h, hget, hval]
        | some v => simp [MachineScope.GetBootstrapData, h, hget, hval]
  · cases h : s.machine.spec.bootstrap.dataSecretName with
    | none => simp [MachineScope.GetBootstrapData, h]
    | some n =>
      cases hget : s.client.get s.linodeMachine.ns n with
      | none => simp [MachineScope.GetBootstrapData, h, hget]
      | some sec =>
        cases hval : sec.get "value" with
        | none => simp [MachineScope.GetBootstrapData, h, hget, hval]
        | some v => simp [MachineScope.GetBootstrapData, h, hget, hval]
  · intro e hprem
    cases h : s.machine.spec.bootstrap.dataSecretName with
    | none => simp [MachineScope.GetBootstrapData, h]
    | some n =>
      cases hget : s.client.get s.linodeMachine.ns n with
      | none => simp [MachineScope.GetBootstrapData, h, hget]
      | some sec =>
        cases hval : sec.get "value" with
        | none => simp [MachineScope.GetBootstrapData, h, hget, hval]
        | some v => simp [MachineScope.GetBootstrapData, h, hget, hval] at hprem
  · intro n h hget
    simp [MachineScope.GetBootstrapData, h, hget]

/-- Witness for C10: moving the parent Machine to another namespace leaves
the result unchanged, and the not-found error path yields the empty non-nil
slice. -/
theorem getBootstrapData_namespace_nonnil_witness :
    ({ scopeEx with machine := { machineEx with ns := "elsewhere" } }
        : MachineScope).GetBootstrapData = scopeEx.GetBootstrapData ∧
    (scopeNoBoot.GetBootstrapData).1 = some "" := by
  refine ⟨(getBootstrapData_namespace_nonnil scopeEx).1 "elsewhere", ?_⟩
  exact (getBootstrapData_namespace_nonnil scopeNoBoot).2.2.1
    (.bootstrapMissingRef "ns1" "lm") (by rfl)

end CAPL
